import Mathlib

/-!
Shallow embedding of the two near-duplicate GnuCash UK ISA allowance
reporting scripts (the underscore-named variant taking an as-of date,
and the hyphen-named variant).  Accounts, transaction splits and the
deposit-extraction, classification and aggregation passes are
translated directly from the Python source; monetary values are exact
rationals (Python `Fraction`), dates are (year, month, day) triples
with lexicographic order, and the `re.match` anchored matching of the
three description regexes is modelled by a small regular-expression
evaluator over character lists.
-/

/-- Calendar date, ordered lexicographically like Python `datetime.date`. -/
structure Date where
  year : Nat
  month : Nat
  day : Nat
deriving DecidableEq, Repr

/-- Strict comparison of dates (Python `date` comparison, lexicographic). -/
def dateLt (a b : Date) : Bool :=
  decide (a.year < b.year) ||
    (a.year == b.year && (decide (a.month < b.month) ||
      (a.month == b.month && decide (a.day < b.day))))

/-- Left-pad the decimal representation of `n` with zeros to width `w`
(Python `f"{n:04d}"` / `f"{n:02d}"` for nonnegative `n`). -/
def padNum (w : Nat) (n : Nat) : String :=
  let s := toString n
  String.mk (List.replicate (w - s.length) ('0')) ++ s

/-- Translation of `tax_year`: 6 April starts tax year `Y`, and the label
is the four-digit `Y`, a slash, and `(Y+1) mod 100` as two digits. -/
def tax_year (d : Date) : String :=
  let year :=
    if d.month == 4 && decide (6 ≤ d.day) then d.year
    else if decide (4 < d.month) then d.year
    else d.year - 1
  padNum 4 year ++ ("/") ++ padNum 2 ((year + 1) % 100)

/-- Minimal regular expressions: literals, alternation, concatenation and
optional groups; enough for the three account-description patterns. -/
inductive Rx where
  | eps : Rx
  | lit : String → Rx
  | alt : Rx → Rx → Rx
  | seq : Rx → Rx → Rx
  | opt : Rx → Rx

/-- Continuation-passing matcher: `r.mc cs k` is true when some split of
`cs` puts a member of the language of `r` in front and a suffix accepted
by `k` behind. -/
def Rx.mc : Rx → List Char → (List Char → Bool) → Bool
  | .eps, cs, k => k cs
  | .lit s, cs, k => s.data.isPrefixOf cs && k (cs.drop s.data.length)
  | .alt a b, cs, k => a.mc cs k || b.mc cs k
  | .seq a b, cs, k => a.mc cs fun cs2 => b.mc cs2 k
  | .opt a, cs, k => a.mc cs k || k cs

/-- Python `PATTERN.match(s) is not None`: anchored at the start, the rest
of the string unconstrained. -/
def rxMatch (r : Rx) (s : String) : Bool :=
  r.mc s.data fun _ => true

/-- Transcription of `r"(Closed )?(Cash|Stocks & Shares) ISA ?"`. -/
def ACCOUNT_DESC_ISA_RE : Rx :=
  .seq (.opt (.lit ("Closed ")))
    (.seq (.alt (.lit ("Cash")) (.lit ("Stocks & Shares")))
      (.seq (.lit (" ISA")) (.opt (.lit (" ")))))

/-- Transcription of `r"(Closed )?Cash ISA ?"`. -/
def ACCOUNT_DESC_CASH_ISA_RE : Rx :=
  .seq (.opt (.lit ("Closed "))) (.seq (.lit ("Cash ISA")) (.opt (.lit (" "))))

/-- Transcription of `r"(Closed )?Stocks & Shares ISA ?"`. -/
def ACCOUNT_DESC_STOCKS_ISA_RE : Rx :=
  .seq (.opt (.lit ("Closed "))) (.seq (.lit ("Stocks & Shares ISA")) (.opt (.lit (" "))))

/-- Account type tags distinguished by the scripts (`gnucash.ACCT_TYPE_*`);
`other` stands for every other GnuCash account type. -/
inductive AcctType where
  | bank | stock | mutual | income | other
deriving DecidableEq, Repr

/-- Read-only view of a GnuCash account: exactly the fields the scripts
consult.  Ancestor names replace the `get_parent` pointer chain. -/
structure Account where
  guid : String
  name : String
  parents : List String
  description : String
  commodity : Option String
  acctType : AcctType
deriving DecidableEq, Repr

/-- Translation of `is_isa_account`: the commodity exists and is GBP and
the description matches the combined ISA pattern. -/
def is_isa_account (a : Account) : Bool :=
  match a.commodity with
  | some m => m == ("GBP") && rxMatch ACCOUNT_DESC_ISA_RE a.description
  | none => false

inductive IsaKind where
  | cash | stocks
deriving DecidableEq, Repr

/-- Translation of `isa_account_type`. -/
def isa_account_type (a : Account) : Option IsaKind :=
  if rxMatch ACCOUNT_DESC_CASH_ISA_RE a.description then some IsaKind.cash
  else if rxMatch ACCOUNT_DESC_STOCKS_ISA_RE a.description then some IsaKind.stocks
  else none

/-- Names consulted by the income-account exclusion in
`is_contribution_account`: the account's own name together with every
ancestor's name. -/
def contribNames (a : Account) : List String :=
  a.name :: a.parents

/-- Translation of `is_contribution_account` from the underscore-named
script (excluded income names: Interest, Dividends). -/
def is_contribution_account (a : Account) : Bool :=
  if is_isa_account a then false
  else if a.acctType == AcctType.stock || a.acctType == AcctType.mutual then false
  else if a.acctType == AcctType.income then
    !((contribNames a).any fun n => n == ("Interest") || n == ("Dividends"))
  else true

/-- Translation of `is_contribution_account` from the hyphen-named script
(excluded income names: Interest, Dividends, Investments). -/
def is_contribution_account_hy (a : Account) : Bool :=
  if is_isa_account a then false
  else if a.acctType == AcctType.stock || a.acctType == AcctType.mutual then false
  else if a.acctType == AcctType.income then
    !((contribNames a).any fun n =>
      n == ("Interest") || n == ("Dividends") || n == ("Investments"))
  else true

/-- One leg of a transaction (a GnuCash split): the account it touches and
its signed exact value (`GetValue().to_fraction()`; the `num() > 0` and
`num() < 0` tests in the source coincide with the sign of the value). -/
structure Split where
  account : Account
  value : ℚ
deriving DecidableEq

structure Transaction where
  date : Date
  splits : List Split
deriving DecidableEq

/-- Translation of the `Deposit` namedtuple. -/
structure Deposit where
  year : String
  date : Date
  account : String
  amount : ℚ
  type : Option IsaKind
deriving DecidableEq, Repr

/-- Inner split loop of `isa_account_deposits`: accumulate the positive
values credited to the account with this guid, and whether some other
account's split is a contribution-source debit. -/
def depStep (guid : String) (p : ℚ × Bool) (s : Split) : ℚ × Bool :=
  if s.account.guid == guid then
    (if 0 < s.value then p.1 + s.value else p.1, p.2)
  else if is_contribution_account s.account then
    (if s.value < 0 then (p.1, true) else p)
  else p

/-- Body of the outer transaction loop of `isa_account_deposits` in the
underscore-named script: skip transactions after `atDate`, otherwise emit
a `Deposit` when the summed positive credit is nonzero and a
contribution-source debit was seen in the same transaction. -/
def txnDeposit (name : String) (acct : Account) (atDate : Date) (txn : Transaction) : Option Deposit :=
  if dateLt atDate txn.date then none
  else
    let p := txn.splits.foldl (depStep acct.guid) (0, false)
    if p.1 ≠ 0 ∧ p.2 = true then
      some { year := tax_year txn.date, date := txn.date, account := name,
             amount := p.1, type := isa_account_type acct }
    else none

/-- Translation of `isa_account_deposits`: `txns` is the list of parent
transactions of the account's splits, in split-list order. -/
def isa_account_deposits (name : String) (acct : Account) (txns : List Transaction) (atDate : Date) : List Deposit :=
  txns.filterMap (txnDeposit name acct atDate)

/-- Code-point lexicographic comparison of character lists (Python string
comparison, used by `sorted` on tax-year labels and account paths). -/
def charListLt : List Char → List Char → Bool
  | [], [] => false
  | [], _ :: _ => true
  | _ :: _, [] => false
  | a :: as, b :: bs =>
    decide (a.val < b.val) || (a.val == b.val && charListLt as bs)

/-- Strict lexicographic order on strings. -/
def strLtB (a b : String) : Bool := charListLt a.data b.data

/-- Prop form of the string order, for the sorting functions. -/
def strLe (a b : String) : Prop := strLtB b a = false

instance : DecidableRel strLe := fun a b => instDecidableEqBool (strLtB b a) false

/-- Python tuple comparison on `Deposit`s as used by `sorted(deposits)`;
ties beyond the amount stay in input order (the sort is stable). -/
def depLeB (a b : Deposit) : Bool :=
  if a.year ≠ b.year then strLtB a.year b.year
  else if a.date ≠ b.date then dateLt a.date b.date
  else if a.account ≠ b.account then strLtB a.account b.account
  else decide (a.amount ≤ b.amount)

def depLe (a b : Deposit) : Prop := depLeB a b = true

instance : DecidableRel depLe := fun a b => instDecidableEqBool (depLeB a b) true

/-- Translation of the `Allowance` namedtuple; the `Decimal` table values
are exact and integral, so they embed into the rationals. -/
structure Allowance where
  cash : ℚ
  stocks : ℚ
  total : ℚ
deriving DecidableEq, Repr

/-- Transcription of the fixed `ALLOWANCES` table. -/
def ALLOWANCES : List (String × Allowance) := [
  (("1999/00"), ⟨3000, 7000, 7000⟩),
  (("2000/01"), ⟨3000, 7000, 7000⟩),
  (("2001/02"), ⟨3000, 7000, 7000⟩),
  (("2002/03"), ⟨3000, 7000, 7000⟩),
  (("2003/04"), ⟨3000, 7000, 7000⟩),
  (("2004/05"), ⟨3000, 7000, 7000⟩),
  (("2005/06"), ⟨3000, 7000, 7000⟩),
  (("2006/07"), ⟨3000, 7000, 7000⟩),
  (("2007/08"), ⟨3000, 7000, 7000⟩),
  (("2008/09"), ⟨3600, 7200, 7200⟩),
  (("2009/10"), ⟨3600, 7200, 7200⟩),
  (("2010/11"), ⟨5100, 10200, 10200⟩),
  (("2011/12"), ⟨5340, 10680, 10680⟩),
  (("2012/13"), ⟨5640, 11280, 11280⟩),
  (("2013/14"), ⟨5760, 11520, 11520⟩),
  (("2014/15"), ⟨15000, 15000, 15000⟩),
  (("2015/16"), ⟨15240, 15240, 15240⟩),
  (("2016/17"), ⟨15240, 15240, 15240⟩),
  (("2017/18"), ⟨20000, 20000, 20000⟩),
  (("2018/19"), ⟨20000, 20000, 20000⟩),
  (("2019/20"), ⟨20000, 20000, 20000⟩),
  (("2020/21"), ⟨20000, 20000, 20000⟩),
  (("2021/22"), ⟨20000, 20000, 20000⟩),
  (("2022/23"), ⟨20000, 20000, 20000⟩),
  (("2023/24"), ⟨20000, 20000, 20000⟩),
  (("2024/25"), ⟨20000, 20000, 20000⟩)]

/-- Running contribution total for one key of the `contributions`
defaultdict: each deposit adds its amount to the entry for its own kind. -/
def contribOf (deps : List Deposit) (k : Option IsaKind) : ℚ :=
  deps.foldl (fun acc d => if d.type == k then acc + d.amount else acc) 0

/-- Running total for the `"total"` key: every deposit adds its amount. -/
def contribTotal (deps : List Deposit) : ℚ :=
  deps.foldl (fun acc d => acc + d.amount) 0

/-- One row of the per-year allowance summary (the final `float(...)`
rendering of each exact value is display conversion, out of scope). -/
structure Row where
  label : String
  allowance : ℚ
  contribs : ℚ
  remaining : ℚ
deriving DecidableEq, Repr

/-- Result of `review_isa_year` in the underscore-named script:
the sorted per-deposit rows and the three allowance rows. -/
structure YearReview where
  txns : List (Date × ℚ × String)
  allowances : List Row
deriving DecidableEq, Repr

/-- Lexicographically last key of the allowance table, Python
`sorted(ALLOWANCES.keys())[-1]`. -/
def latestAllowanceYear : String :=
  (List.insertionSort strLe (ALLOWANCES.map Prod.fst)).getLastD ("")

/-- Translation of `review_isa_year` from the underscore-named script:
fall back to the latest known year when the label has no table entry,
then build the transaction rows and the cash, stocks and total rows. -/
def review_isa_year (year : String) (deposits : List Deposit) : YearReview :=
  let y := if (List.lookup year ALLOWANCES).isSome then year else latestAllowanceYear
  let allowance := (List.lookup y ALLOWANCES).getD ⟨0, 0, 0⟩
  let ds := List.insertionSort depLe deposits
  { txns := ds.map fun d => (d.date, d.amount, d.account),
    allowances := [
      ⟨("Cash"), allowance.cash, contribOf ds (some IsaKind.cash),
        allowance.cash - contribOf ds (some IsaKind.cash)⟩,
      ⟨("S&S"), allowance.stocks, contribOf ds (some IsaKind.stocks),
        allowance.stocks - contribOf ds (some IsaKind.stocks)⟩,
      ⟨("Total"), allowance.total, contribTotal ds,
        allowance.total - contribTotal ds⟩] }

/-- One account of the ledger walk: its path, the account view, and the
parent transactions of the account's splits in split-list order. -/
structure LedgerEntry where
  path : List String
  account : Account
  txns : List Transaction

/-- Translation of `path2str`. -/
def path2str (path : List String) : String :=
  String.intercalate (":") path

/-- Deposits of every ISA account of the ledger (the filtering of
`isa_accounts` composed with `isa_account_deposits`). -/
def all_deposits (ledger : List LedgerEntry) (atDate : Date) : List Deposit :=
  (ledger.filter fun e => is_isa_account e.account).flatMap
    fun e => isa_account_deposits (path2str e.path) e.account e.txns atDate

/-- Sorted set of tax years reviewed by `review_isa_accounts`: the years
of the extracted deposits together with the year of the as-of date. -/
def review_years_list (ledger : List LedgerEntry) (atDate : Date) : List String :=
  List.insertionSort strLe
    (((all_deposits ledger atDate).map Deposit.year ++ [tax_year atDate]).dedup)

/-- Translation of `review_isa_accounts` from the underscore-named
script: one `YearReview` per reviewed year. -/
def review_isa_accounts (ledger : List LedgerEntry) (atDate : Date) : List (String × YearReview) :=
  (review_years_list ledger atDate).map
    fun y => (y, review_isa_year y ((all_deposits ledger atDate).filter fun d => d.year == y))

/-- Predicate for a split positively crediting the account with guid `g`. -/
def posCredit (g : String) (s : Split) : Bool :=
  s.account.guid == g && decide (0 < s.value)

/-- Predicate for a split of another account that is a contribution-source
debit. -/
def contribDebit (g : String) (s : Split) : Bool :=
  !(s.account.guid == g) && (is_contribution_account s.account && decide (s.value < 0))

/-- Sum of the positive values credited to the account with guid `g`. -/
def posSum (g : String) : List Split → ℚ
  | [] => 0
  | s :: ss => (if posCredit g s then s.value else 0) + posSum g ss


/-- Concrete ISA account used by witnesses. -/
def isaAcctW : Account :=
  { guid := ("isa0"), name := ("ISA"), parents := [("Assets")],
    description := ("Cash ISA"), commodity := some ("GBP"), acctType := AcctType.bank }

/-- Concrete checking account used by witnesses. -/
def chkAcctW : Account :=
  { guid := ("chk0"), name := ("Checking"), parents := [("Assets")],
    description := ("Current account"), commodity := some ("GBP"), acctType := AcctType.bank }

/-- Concrete external deposit transaction used by witnesses. -/
def txnW : Transaction :=
  { date := ⟨2024, 5, 1⟩, splits := [⟨isaAcctW, 100⟩, ⟨chkAcctW, -100⟩] }

/-- Income account named Investments that is not an ISA account. -/
def invAcctW : Account :=
  { guid := ("inv0"), name := ("Investments"), parents := [("Income")],
    description := ("Investment income"), commodity := some ("GBP"), acctType := AcctType.income }

/-- Stock-type account. -/
def stkAcctW : Account :=
  { guid := ("stk0"), name := ("Shares"), parents := [("Assets")],
    description := ("Broker"), commodity := none, acctType := AcctType.stock }

/-- ISA account of the net-versus-gross counterexample. -/
def isaAcctX : Account :=
  { guid := ("isaX"), name := ("ISA X"), parents := [("Assets")],
    description := ("Cash ISA"), commodity := some ("GBP"), acctType := AcctType.bank }

/-- External account of the net-versus-gross counterexample. -/
def chkAcctX : Account :=
  { guid := ("chkX"), name := ("Checking X"), parents := [("Assets")],
    description := ("Current account"), commodity := some ("GBP"), acctType := AcctType.bank }

/-- Balanced transaction that credits and debits the ISA account 100
within the same transaction (net zero on the ISA account) while an
external account supplies a debit leg. -/
def txnX : Transaction :=
  { date := ⟨2024, 5, 1⟩,
    splits := [⟨isaAcctX, 100⟩, ⟨isaAcctX, -100⟩, ⟨chkAcctX, 100⟩, ⟨chkAcctX, -100⟩] }

/-- Income-type account that is simultaneously ISA-shaped and named
Investments. -/
def invIsaAcctX : Account :=
  { guid := ("invX"), name := ("Investments"), parents := [],
    description := ("Cash ISA"), commodity := some ("GBP"), acctType := AcctType.income }

/-- Concrete cash deposit used by witnesses. -/
def depW : Deposit :=
  { year := ("2023/24"), date := ⟨2023, 5, 1⟩, account := ("p"),
    amount := 100, type := some IsaKind.cash }

/-- Prefix test against a concatenation splits into two prefix tests. -/
theorem isPrefixOf_append_eq (a b l : List Char) :
    (a ++ b).isPrefixOf l = (a.isPrefixOf l && b.isPrefixOf (l.drop a.length)) := by
  induction a generalizing l with
  | nil => simp [List.isPrefixOf]
  | cons x xs ih =>
    cases l with
    | nil => simp [List.isPrefixOf]
    | cons y ys => simp [List.isPrefixOf, ih, Bool.and_assoc]

/-- Reduction of the empty prefix test. -/
theorem nil_isPrefixOf_eq (l : List Char) : ([] : List Char).isPrefixOf l = true := by
  cases l <;> rfl

/-- Two prefixes of the same list are comparable. -/
theorem isPrefixOf_total (l a b : List Char) (ha : a.isPrefixOf l = true)
    (hb : b.isPrefixOf l = true) : a.isPrefixOf b = true ∨ b.isPrefixOf a = true := by
  induction l generalizing a b with
  | nil =>
    cases a with
    | nil => exact Or.inl (nil_isPrefixOf_eq b)
    | cons x xs => simp [List.isPrefixOf] at ha
  | cons c cs ih =>
    cases a with
    | nil => exact Or.inl (nil_isPrefixOf_eq b)
    | cons x xs =>
      cases b with
      | nil => exact Or.inr (nil_isPrefixOf_eq (x :: xs))
      | cons y ys =>
        simp only [List.isPrefixOf, Bool.and_eq_true, beq_iff_eq] at ha hb ⊢
        rcases ha with ⟨hx, ha⟩
        rcases hb with ⟨hy, hb⟩
        subst hx; subst hy
        rcases ih xs ys ha hb with h | h
        · exact Or.inl ⟨rfl, h⟩
        · exact Or.inr ⟨rfl, h⟩

/-- Characterization of the anchored match of the cash-ISA pattern. -/
theorem rxMatch_cash_eq (s : String) :
    rxMatch ACCOUNT_DESC_CASH_ISA_RE s =
      (("Cash ISA").data.isPrefixOf s.data || ("Closed Cash ISA").data.isPrefixOf s.data) := by
  have e1 : ("Closed Cash ISA").data = ("Closed ").data ++ ("Cash ISA").data := by decide
  rw [e1, isPrefixOf_append_eq]
  simp only [rxMatch, ACCOUNT_DESC_CASH_ISA_RE, Rx.mc, Bool.or_true, Bool.and_true]
  exact Bool.or_comm _ _

/-- Characterization of the anchored match of the stocks-ISA pattern. -/
theorem rxMatch_stocks_eq (s : String) :
    rxMatch ACCOUNT_DESC_STOCKS_ISA_RE s =
      (("Stocks & Shares ISA").data.isPrefixOf s.data ||
        ("Closed Stocks & Shares ISA").data.isPrefixOf s.data) := by
  have e1 : ("Closed Stocks & Shares ISA").data =
      ("Closed ").data ++ ("Stocks & Shares ISA").data := by decide
  rw [e1, isPrefixOf_append_eq]
  simp only [rxMatch, ACCOUNT_DESC_STOCKS_ISA_RE, Rx.mc, Bool.or_true, Bool.and_true]
  exact Bool.or_comm _ _

/-- Distribution of Boolean conjunction over disjunction. -/
theorem bool_and_or (a b c : Bool) : (a && (b || c)) = (a && b || a && c) := by
  cases a <;> simp

/-- Characterization of the anchored match of the combined ISA pattern. -/
theorem rxMatch_isa_eq (s : String) :
    rxMatch ACCOUNT_DESC_ISA_RE s =
      (("Closed Cash ISA").data.isPrefixOf s.data ||
        ("Closed Stocks & Shares ISA").data.isPrefixOf s.data ||
        ("Cash ISA").data.isPrefixOf s.data ||
        ("Stocks & Shares ISA").data.isPrefixOf s.data) := by
  have e3 : ("Closed Cash ISA").data = ("Closed ").data ++ ("Cash ISA").data := by decide
  have e4 : ("Closed Stocks & Shares ISA").data =
      ("Closed ").data ++ ("Stocks & Shares ISA").data := by decide
  have e1 : ("Cash ISA").data = ("Cash").data ++ (" ISA").data := by decide
  have e2 : ("Stocks & Shares ISA").data = ("Stocks & Shares").data ++ (" ISA").data := by decide
  rw [e3, e4, isPrefixOf_append_eq, isPrefixOf_append_eq, e1, e2]
  rw [isPrefixOf_append_eq, isPrefixOf_append_eq, isPrefixOf_append_eq, isPrefixOf_append_eq]
  simp only [rxMatch, ACCOUNT_DESC_ISA_RE, Rx.mc, Bool.or_true, Bool.and_true]
  rw [bool_and_or]
  simp only [Bool.or_assoc]

/-- The contribution flag computed by the split loop. -/
theorem depFold_snd (g : String) (splits : List Split) (p : ℚ × Bool) :
    (splits.foldl (depStep g) p).2 = (p.2 || splits.any (contribDebit g)) := by
  induction splits generalizing p with
  | nil => simp
  | cons s ss ih =>
    have hstep : (depStep g p s).2 = (p.2 || contribDebit g s) := by
      cases hg : s.account.guid == g <;>
        cases hc : is_contribution_account s.account <;>
          by_cases hv : s.value < 0 <;>
            simp [depStep, contribDebit, hg, hc, hv]
    simp only [List.foldl_cons, List.any_cons, ih, hstep, Bool.or_assoc]

/-- The amount computed by the split loop. -/
theorem depFold_fst (g : String) (splits : List Split) (p : ℚ × Bool) :
    (splits.foldl (depStep g) p).1 = p.1 + posSum g splits := by
  induction splits generalizing p with
  | nil => simp [posSum]
  | cons s ss ih =>
    have hstep : (depStep g p s).1 = p.1 + (if posCredit g s then s.value else 0) := by
      cases hg : s.account.guid == g <;>
        cases hc : is_contribution_account s.account <;>
          by_cases h0 : 0 < s.value <;>
            by_cases hv : s.value < 0 <;>
              simp [depStep, posCredit, hg, hc, h0, hv]
    simp only [List.foldl_cons, ih, hstep, posSum, add_assoc]

/-- Extraction of the positivity from `posCredit`. -/
theorem posCredit_pos {g : String} {s : Split} (h : posCredit g s = true) : 0 < s.value := by
  simp only [posCredit, Bool.and_eq_true, decide_eq_true_eq] at h
  exact h.2

/-- The summed credit is never negative. -/
theorem posSum_nonneg (g : String) (splits : List Split) : 0 ≤ posSum g splits := by
  induction splits with
  | nil => simp [posSum]
  | cons s ss ih =>
    cases h : posCredit g s with
    | false => simpa [posSum, h] using ih
    | true =>
      have hv : 0 < s.value := posCredit_pos h
      simp only [posSum, h, if_true]
      linarith

/-- The summed credit is positive exactly when some split positively
credits the account. -/
theorem posSum_pos_iff (g : String) (splits : List Split) :
    0 < posSum g splits ↔ splits.any (posCredit g) = true := by
  induction splits with
  | nil => simp [posSum]
  | cons s ss ih =>
    cases h : posCredit g s with
    | false => simpa [posSum, h] using ih
    | true =>
      have hv : 0 < s.value := posCredit_pos h
      have hs : 0 ≤ posSum g ss := posSum_nonneg g ss
      simp only [posSum, h, if_true, List.any_cons, Bool.true_or, iff_true]
      linarith

/-- The summed credit is nonzero exactly when it is positive. -/
theorem posSum_ne_zero_iff (g : String) (splits : List Split) :
    posSum g splits ≠ 0 ↔ splits.any (posCredit g) = true := by
  rw [← posSum_pos_iff]
  constructor
  · intro h
    exact lt_of_le_of_ne (posSum_nonneg g splits) (Ne.symm h)
  · intro h
    exact ne_of_gt h

/-- Closed form of the transaction-loop body. -/
theorem txnDeposit_eq (name : String) (acct : Account) (atDate : Date) (txn : Transaction) :
    txnDeposit name acct atDate txn =
      if dateLt atDate txn.date then none
      else if txn.splits.any (posCredit acct.guid) && txn.splits.any (contribDebit acct.guid) then
        some { year := tax_year txn.date, date := txn.date, account := name,
               amount := posSum acct.guid txn.splits, type := isa_account_type acct }
      else none := by
  unfold txnDeposit
  by_cases hd : dateLt atDate txn.date = true
  · simp [hd]
  · simp only [Bool.not_eq_true] at hd
    simp only [hd, Bool.false_eq_true, if_false]
    rw [depFold_fst, depFold_snd]
    simp only [zero_add, Bool.false_or]
    by_cases h1 : txn.splits.any (posCredit acct.guid) = true <;>
      by_cases h2 : txn.splits.any (contribDebit acct.guid) = true
    · have hne : posSum acct.guid txn.splits ≠ 0 := (posSum_ne_zero_iff _ _).mpr h1
      simp [h1, h2, hne]
    · simp [h1, h2]
    · have hz : posSum acct.guid txn.splits = 0 := by
        by_contra hne
        exact h1 ((posSum_ne_zero_iff _ _).mp hne)
      simp [h1, h2, hz]
    · simp [h1, h2]

/-- Membership form of the positive-credit test. -/
theorem any_posCredit_iff (g : String) (l : List Split) :
    l.any (posCredit g) = true ↔ ∃ s ∈ l, s.account.guid = g ∧ 0 < s.value := by
  simp [List.any_eq_true, posCredit]

/-- Membership form of the contribution-debit test. -/
theorem any_contribDebit_iff (g : String) (l : List Split) :
    l.any (contribDebit g) = true ↔
      ∃ s ∈ l, s.account.guid ≠ g ∧ is_contribution_account s.account = true ∧ s.value < 0 := by
  simp [List.any_eq_true, contribDebit]

/-- An accepted ISA account's description matches the combined pattern. -/
theorem is_isa_account_match {a : Account} (h : is_isa_account a = true) :
    rxMatch ACCOUNT_DESC_ISA_RE a.description = true := by
  unfold is_isa_account at h
  cases hc : a.commodity with
  | none => rw [hc] at h; exact Bool.noConfusion h
  | some m =>
    rw [hc] at h
    simp only [Bool.and_eq_true] at h
    exact h.2

/-- A combined-pattern match is a cash-pattern or stocks-pattern match. -/
theorem isa_match_split (s : String) (h : rxMatch ACCOUNT_DESC_ISA_RE s = true) :
    rxMatch ACCOUNT_DESC_CASH_ISA_RE s = true ∨ rxMatch ACCOUNT_DESC_STOCKS_ISA_RE s = true := by
  rw [rxMatch_isa_eq] at h
  rw [rxMatch_cash_eq, rxMatch_stocks_eq]
  simp only [Bool.or_eq_true] at h ⊢
  tauto

/-- No description matches both the cash and the stocks pattern. -/
theorem cash_stocks_not_both (s : String) :
    ¬(rxMatch ACCOUNT_DESC_CASH_ISA_RE s = true ∧
      rxMatch ACCOUNT_DESC_STOCKS_ISA_RE s = true) := by
  rintro ⟨hc, hs⟩
  rw [rxMatch_cash_eq] at hc
  rw [rxMatch_stocks_eq] at hs
  simp only [Bool.or_eq_true] at hc hs
  rcases hc with hc | hc <;> rcases hs with hs | hs <;>
    rcases isPrefixOf_total _ _ _ hc hs with h | h <;> exact absurd h (by decide)

/-- Membership form of the two-name exclusion test. -/
theorem any_two_iff (l : List String) (x y : String) :
    (l.any fun n => n == x || n == y) = true ↔ (x ∈ l ∨ y ∈ l) := by
  simp only [List.any_eq_true, Bool.or_eq_true, beq_iff_eq]
  constructor
  · rintro ⟨n, hn, h | h⟩
    · exact Or.inl (h ▸ hn)
    · exact Or.inr (h ▸ hn)
  · rintro (h | h)
    · exact ⟨x, h, Or.inl rfl⟩
    · exact ⟨y, h, Or.inr rfl⟩

/-- Membership form of the three-name exclusion test. -/
theorem any_three_iff (l : List String) (x y z : String) :
    (l.any fun n => n == x || n == y || n == z) = true ↔ (x ∈ l ∨ y ∈ l ∨ z ∈ l) := by
  simp only [List.any_eq_true, Bool.or_eq_true, beq_iff_eq]
  constructor
  · rintro ⟨n, hn, (h | h) | h⟩
    · exact Or.inl (h ▸ hn)
    · exact Or.inr (Or.inl (h ▸ hn))
    · exact Or.inr (Or.inr (h ▸ hn))
  · rintro (h | h | h)
    · exact ⟨x, h, Or.inl (Or.inl rfl)⟩
    · exact ⟨y, h, Or.inl (Or.inr rfl)⟩
    · exact ⟨z, h, Or.inr rfl⟩

/-- Negative membership form of the two-name exclusion test. -/
theorem any_two_false (l : List String) (x y : String) :
    (l.any fun n => n == x || n == y) = false ↔ (x ∉ l ∧ y ∉ l) := by
  rw [← Bool.not_eq_true, any_two_iff, not_or]

/-- Negative membership form of the three-name exclusion test. -/
theorem any_three_false (l : List String) (x y z : String) :
    (l.any fun n => n == x || n == y || n == z) = false ↔ (x ∉ l ∧ y ∉ l ∧ z ∉ l) := by
  rw [← Bool.not_eq_true, any_three_iff, not_or, not_or]

/-- C3: `tax_year` maps a date to the label of tax year `Y`, with
`Y` the calendar year when the date is on or after 6 April (month 4 with
day at least 6, or a later month) and the previous calendar year
otherwise, formatted as the four-digit `Y`, a slash, and `(Y+1) mod 100`
as two digits; in particular 2024-04-05 gives "2023/24" and 2024-04-06
gives "2024/25". -/
theorem tax_year_correct :
    (∀ d : Date,
      tax_year d =
        padNum 4 (if (d.month = 4 ∧ 6 ≤ d.day) ∨ 4 < d.month then d.year else d.year - 1) ++
          ("/") ++
          padNum 2
            (((if (d.month = 4 ∧ 6 ≤ d.day) ∨ 4 < d.month then d.year else d.year - 1) + 1) % 100)) ∧
      tax_year ⟨2024, 4, 5⟩ = ("2023/24") ∧ tax_year ⟨2024, 4, 6⟩ = ("2024/25") := by
  refine ⟨fun d => ?_, by decide, by decide⟩
  simp only [tax_year, Bool.and_eq_true, beq_iff_eq, decide_eq_true_eq]
  split_ifs <;> first | rfl | (exfalso; omega)

/-- C7: `is_isa_account` accepts exactly the accounts whose commodity
mnemonic is "GBP" and whose description is matched, anchored at the
start and case- and wording-sensitively, by the pattern
`(Closed )?(Cash|Stocks & Shares) ISA ?` (the trailing space optional),
i.e. whose description begins with one of the four literal forms. -/
theorem is_isa_account_characterization (a : Account) :
    is_isa_account a = true ↔
      (a.commodity = some ("GBP") ∧
        (("Closed Cash ISA").data.isPrefixOf a.description.data = true ∨
          ("Closed Stocks & Shares ISA").data.isPrefixOf a.description.data = true ∨
          ("Cash ISA").data.isPrefixOf a.description.data = true ∨
          ("Stocks & Shares ISA").data.isPrefixOf a.description.data = true)) := by
  unfold is_isa_account
  cases hc : a.commodity with
  | none => simp
  | some m =>
    rw [rxMatch_isa_eq]
    simp [Bool.and_eq_true, beq_iff_eq, Bool.or_eq_true, or_assoc]

/-- C2: every deposit extracted with an as-of cutoff date is dated on or
before the cutoff: transactions dated strictly after it are skipped, so
no deposit dated after the cutoff enters the aggregation. -/
theorem deposits_not_after_cutoff (name : String) (acct : Account)
    (txns : List Transaction) (atDate : Date) (d : Deposit)
    (hd : d ∈ isa_account_deposits name acct txns atDate) :
    dateLt atDate d.date = false := by
  unfold isa_account_deposits at hd
  rcases List.mem_filterMap.mp hd with ⟨txn, hmem, htxn⟩
  rw [txnDeposit_eq] at htxn
  by_cases h1 : dateLt atDate txn.date = true
  · rw [if_pos h1] at htxn
    exact Option.noConfusion htxn
  · rw [if_neg h1] at htxn
    have h1' : dateLt atDate txn.date = false := by simpa using h1
    by_cases h2 : (txn.splits.any (posCredit acct.guid) &&
        txn.splits.any (contribDebit acct.guid)) = true
    · rw [if_pos h2] at htxn
      injection htxn with h3
      subst h3
      exact h1'
    · rw [if_neg h2] at htxn
      exact Option.noConfusion htxn

/-- Witness for C2 at a concrete ledger. -/
theorem deposits_not_after_cutoff_witness :
    dateLt ⟨2024, 6, 1⟩
      (Deposit.mk ("2024/25") ⟨2024, 5, 1⟩ ("p") 100 (some IsaKind.cash)).date = false := by
  have h1 : txnDeposit ("p") isaAcctW ⟨2024, 6, 1⟩ txnW =
      some (Deposit.mk ("2024/25") ⟨2024, 5, 1⟩ ("p") 100 (some IsaKind.cash)) := by
    rw [txnDeposit_eq,
      show posSum isaAcctW.guid txnW.splits = 100 from by
        simp +decide [posSum, posCredit, txnW, isaAcctW, chkAcctW]]
    decide
  exact deposits_not_after_cutoff ("p") isaAcctW [txnW] ⟨2024, 6, 1⟩ _
    (by simp [isa_account_deposits, h1])

/-- C1 (amended): for a transaction not dated after the cutoff, the code
emits a deposit for it exactly when some split strictly positively
credits the scanned account (only strictly positive splits are summed,
so the gross positive credit rather than the net amount is what must be
nonzero) and some split of a different account is a contribution-source
debit. -/
theorem deposit_emitted_iff (name : String) (acct : Account) (atDate : Date)
    (txn : Transaction) (hdate : dateLt atDate txn.date = false) :
    isa_account_deposits name acct [txn] atDate ≠ [] ↔
      ((∃ s ∈ txn.splits, s.account.guid = acct.guid ∧ 0 < s.value) ∧
        (∃ s ∈ txn.splits, s.account.guid ≠ acct.guid ∧
          is_contribution_account s.account = true ∧ s.value < 0)) := by
  unfold isa_account_deposits
  simp only [List.filterMap_cons, List.filterMap_nil]
  rw [txnDeposit_eq]
  simp only [hdate, Bool.false_eq_true, if_false]
  rw [← any_posCredit_iff, ← any_contribDebit_iff, ← Bool.and_eq_true]
  by_cases hb : (txn.splits.any (posCredit acct.guid) &&
      txn.splits.any (contribDebit acct.guid)) = true
  · simp [hb]
  · simp [hb]

/-- Witness for C1 at a concrete transaction with an external debit. -/
theorem deposit_emitted_iff_witness :
    isa_account_deposits ("p") isaAcctW [txnW] ⟨2024, 6, 1⟩ ≠ [] :=
  (deposit_emitted_iff ("p") isaAcctW ⟨2024, 6, 1⟩ txnW (by decide)).mpr
    ⟨⟨⟨isaAcctW, 100⟩, by decide, by decide, by decide⟩,
     ⟨⟨chkAcctW, -100⟩, by decide, by decide, by decide, by decide⟩⟩

/-- C1 counterexample: the code emits a deposit for `txnX` although the
net amount credited to the ISA account within that transaction is zero
(a credit of 100 and a debit of 100), because only the strictly positive
splits are summed. -/
theorem net_credit_counterexample :
    (isa_account_deposits ("p") isaAcctX [txnX] ⟨2024, 6, 1⟩).length = 1 ∧
      (txnX.splits.map fun s =>
        if s.account.guid == isaAcctX.guid then s.value else 0).sum = 0 := by
  constructor
  · have h1 : txnDeposit ("p") isaAcctX ⟨2024, 6, 1⟩ txnX =
        some (Deposit.mk ("2024/25") ⟨2024, 5, 1⟩ ("p") 100 (some IsaKind.cash)) := by
      rw [txnDeposit_eq,
        show posSum isaAcctX.guid txnX.splits = 100 from by
          simp +decide [posSum, posCredit, txnX, isaAcctX, chkAcctX]]
      decide
    simp [isa_account_deposits, h1]
  · simp +decide [txnX, isaAcctX, chkAcctX]

/-- C10: every deposit extracted from an account accepted by
`is_isa_account` has a strictly positive amount and a kind that is cash
or stocks, never none; moreover the description of such an account never
matches both the cash and the stocks pattern, so the kind is the unique
matching one. -/
theorem deposit_amount_pos_kind_some (name : String) (acct : Account)
    (txns : List Transaction) (atDate : Date) (d : Deposit)
    (hisa : is_isa_account acct = true)
    (hd : d ∈ isa_account_deposits name acct txns atDate) :
    0 < d.amount ∧
      (d.type = some IsaKind.cash ∨ d.type = some IsaKind.stocks) ∧
      ¬(rxMatch ACCOUNT_DESC_CASH_ISA_RE acct.description = true ∧
        rxMatch ACCOUNT_DESC_STOCKS_ISA_RE acct.description = true) := by
  unfold isa_account_deposits at hd
  rcases List.mem_filterMap.mp hd with ⟨txn, hmem, htxn⟩
  rw [txnDeposit_eq] at htxn
  by_cases h1 : dateLt atDate txn.date = true
  · rw [if_pos h1] at htxn
    exact Option.noConfusion htxn
  · rw [if_neg h1] at htxn
    by_cases h2 : (txn.splits.any (posCredit acct.guid) &&
        txn.splits.any (contribDebit acct.guid)) = true
    · rw [if_pos h2] at htxn
      injection htxn with h3
      subst h3
      refine ⟨?_, ?_, cash_stocks_not_both acct.description⟩
      · have hp : txn.splits.any (posCredit acct.guid) = true := by
          simp only [Bool.and_eq_true] at h2
          exact h2.1
        exact (posSum_pos_iff acct.guid txn.splits).mpr hp
      · rcases isa_match_split acct.description (is_isa_account_match hisa) with h | h
        · left
          show isa_account_type acct = some IsaKind.cash
          simp [isa_account_type, h]
        · right
          have hcf : rxMatch ACCOUNT_DESC_CASH_ISA_RE acct.description = false := by
            by_cases hx : rxMatch ACCOUNT_DESC_CASH_ISA_RE acct.description = true
            · exact absurd ⟨hx, h⟩ (cash_stocks_not_both acct.description)
            · simpa using hx
          show isa_account_type acct = some IsaKind.stocks
          simp [isa_account_type, h, hcf]
    · rw [if_neg h2] at htxn
      exact Option.noConfusion htxn

/-- Witness for C10 at a concrete ledger. -/
theorem deposit_amount_pos_kind_some_witness :
    0 < (Deposit.mk ("2024/25") ⟨2024, 5, 1⟩ ("p") 100 (some IsaKind.cash)).amount ∧
      ((Deposit.mk ("2024/25") ⟨2024, 5, 1⟩ ("p") 100 (some IsaKind.cash)).type =
          some IsaKind.cash ∨
        (Deposit.mk ("2024/25") ⟨2024, 5, 1⟩ ("p") 100 (some IsaKind.cash)).type =
          some IsaKind.stocks) ∧
      ¬(rxMatch ACCOUNT_DESC_CASH_ISA_RE isaAcctW.description = true ∧
        rxMatch ACCOUNT_DESC_STOCKS_ISA_RE isaAcctW.description = true) := by
  have h1 : txnDeposit ("p") isaAcctW ⟨2024, 6, 1⟩ txnW =
      some (Deposit.mk ("2024/25") ⟨2024, 5, 1⟩ ("p") 100 (some IsaKind.cash)) := by
    rw [txnDeposit_eq,
      show posSum isaAcctW.guid txnW.splits = 100 from by
        simp +decide [posSum, posCredit, txnW, isaAcctW, chkAcctW]]
    decide
  exact deposit_amount_pos_kind_some ("p") isaAcctW [txnW] ⟨2024, 6, 1⟩ _
    (by decide) (by simp [isa_account_deposits, h1])

/-- C4 counterexample: an income-type account named Investments that is
itself an ISA account (GBP commodity, description "Cash ISA").  It
satisfies the claim's exception condition, yet the underscore-named
classifier returns false for it (not true as the claim states), and the
two classifiers agree on it. -/
theorem contribution_classifiers_counterexample :
    invIsaAcctX.acctType = AcctType.income ∧
      ("Investments") ∈ contribNames invIsaAcctX ∧
      ("Interest") ∉ contribNames invIsaAcctX ∧
      ("Dividends") ∉ contribNames invIsaAcctX ∧
      is_contribution_account invIsaAcctX = false ∧
      is_contribution_account_hy invIsaAcctX = false := by
  decide

/-- C4 (amended): both classifiers reject ISA accounts and stock- or
mutual-fund-type accounts; they return the same answer for every
account except a non-ISA income-type account whose own name or some
ancestor's name is Investments while none of those names is Interest or
Dividends, where the underscore-named classifier returns true and the
hyphen-named one returns false. -/
theorem contribution_classifiers_agree (a : Account) :
    (is_isa_account a = true →
      is_contribution_account a = false ∧ is_contribution_account_hy a = false) ∧
    (a.acctType = AcctType.stock ∨ a.acctType = AcctType.mutual →
      is_contribution_account a = false ∧ is_contribution_account_hy a = false) ∧
    (a.acctType = AcctType.income ∧ is_isa_account a = false ∧
        ("Investments") ∈ contribNames a ∧ ("Interest") ∉ contribNames a ∧
        ("Dividends") ∉ contribNames a →
      is_contribution_account a = true ∧ is_contribution_account_hy a = false) ∧
    (¬(a.acctType = AcctType.income ∧ is_isa_account a = false ∧
        ("Investments") ∈ contribNames a ∧ ("Interest") ∉ contribNames a ∧
        ("Dividends") ∉ contribNames a) →
      is_contribution_account a = is_contribution_account_hy a) := by
  refine ⟨?_, ?_, ?_, ?_⟩
  · intro h
    simp [is_contribution_account, is_contribution_account_hy, h]
  · intro h
    by_cases hisa : is_isa_account a = true <;>
      rcases h with h | h <;>
        simp [is_contribution_account, is_contribution_account_hy, hisa, h]
  · rintro ⟨ht, hisa, hinv, hint, hdiv⟩
    constructor
    · simp only [is_contribution_account, hisa, Bool.false_eq_true, if_false, ht]
      simp [(any_two_false (contribNames a) ("Interest") ("Dividends")).mpr ⟨hint, hdiv⟩]
    · simp only [is_contribution_account_hy, hisa, Bool.false_eq_true, if_false, ht]
      have hx : ((contribNames a).any fun n =>
          n == ("Interest") || n == ("Dividends") || n == ("Investments")) = true :=
        (any_three_iff (contribNames a) ("Interest") ("Dividends") ("Investments")).mpr
          (Or.inr (Or.inr hinv))
      simp [hx]
  · intro hne
    by_cases hisa : is_isa_account a = true
    · simp [is_contribution_account, is_contribution_account_hy, hisa]
    · have hisa' : is_isa_account a = false := by simpa using hisa
      by_cases hst : a.acctType = AcctType.stock ∨ a.acctType = AcctType.mutual
      · rcases hst with h | h <;>
          simp [is_contribution_account, is_contribution_account_hy, hisa', h]
      · by_cases hinc : a.acctType = AcctType.income
        · by_cases hint : ("Interest") ∈ contribNames a
          · have h2 : ((contribNames a).any fun n =>
                n == ("Interest") || n == ("Dividends")) = true :=
              (any_two_iff _ _ _).mpr (Or.inl hint)
            have h3 : ((contribNames a).any fun n =>
                n == ("Interest") || n == ("Dividends") || n == ("Investments")) = true :=
              (any_three_iff _ _ _ _).mpr (Or.inl hint)
            simp [is_contribution_account, is_contribution_account_hy, hisa', hinc, h2, h3]
          · by_cases hdiv : ("Dividends") ∈ contribNames a
            · have h2 : ((contribNames a).any fun n =>
                  n == ("Interest") || n == ("Dividends")) = true :=
                (any_two_iff _ _ _).mpr (Or.inr hdiv)
              have h3 : ((contribNames a).any fun n =>
                  n == ("Interest") || n == ("Dividends") || n == ("Investments")) = true :=
                (any_three_iff _ _ _ _).mpr (Or.inr (Or.inl hdiv))
              simp [is_contribution_account, is_contribution_account_hy, hisa', hinc, h2, h3]
            · have hni : ("Investments") ∉ contribNames a := by
                intro hx
                exact hne ⟨hinc, hisa', hx, hint, hdiv⟩
              have h2 : ((contribNames a).any fun n =>
                  n == ("Interest") || n == ("Dividends")) = false :=
                (any_two_false _ _ _).mpr ⟨hint, hdiv⟩
              have h3 : ((contribNames a).any fun n =>
                  n == ("Interest") || n == ("Dividends") || n == ("Investments")) = false :=
                (any_three_false _ _ _ _).mpr ⟨hint, hdiv, hni⟩
              simp [is_contribution_account, is_contribution_account_hy, hisa', hinc, h2, h3]
        · cases hat : a.acctType <;>
            simp_all [is_contribution_account, is_contribution_account_hy]

/-- Witness for C4 at concrete accounts of each class. -/
theorem contribution_classifiers_agree_witness :
    (is_contribution_account isaAcctW = false ∧
      is_contribution_account_hy isaAcctW = false) ∧
    (is_contribution_account stkAcctW = false ∧
      is_contribution_account_hy stkAcctW = false) ∧
    (is_contribution_account invAcctW = true ∧
      is_contribution_account_hy invAcctW = false) ∧
    is_contribution_account chkAcctW = is_contribution_account_hy chkAcctW :=
  ⟨(contribution_classifiers_agree isaAcctW).1 (by decide),
   (contribution_classifiers_agree stkAcctW).2.1 (Or.inl rfl),
   (contribution_classifiers_agree invAcctW).2.2.1
     ⟨rfl, by decide, by decide, by decide, by decide⟩,
   (contribution_classifiers_agree chkAcctW).2.2.2 (by decide)⟩

/-- C5: the tax years reported by `review_isa_accounts` are exactly the
years of the extracted deposits together with the tax year containing
the as-of date; in particular the as-of date's year is reported even
with zero deposits. -/
theorem review_years_characterization (ledger : List LedgerEntry) (atDate : Date) (y : String) :
    y ∈ (review_isa_accounts ledger atDate).map Prod.fst ↔
      ((∃ d ∈ all_deposits ledger atDate, d.year = y) ∨ y = tax_year atDate) := by
  unfold review_isa_accounts
  rw [List.map_map]
  have h1 : (Prod.fst ∘ fun y => (y, review_isa_year y
      ((all_deposits ledger atDate).filter fun d => d.year == y))) = id := rfl
  rw [h1, List.map_id]
  unfold review_years_list
  rw [List.mem_insertionSort, List.mem_dedup, List.mem_append, List.mem_singleton,
    List.mem_map]

/-- C6: when a tax-year label has no entry in the allowance table, the
per-year review does not fail: it reviews with the allowance of the
lexicographically last known year, 2024/25, and still produces the
three-row summary. -/
theorem review_missing_year_fallback (year : String) (deps : List Deposit)
    (h : List.lookup year ALLOWANCES = none) :
    review_isa_year year deps = review_isa_year latestAllowanceYear deps ∧
      latestAllowanceYear = ("2024/25") ∧
      (review_isa_year year deps).allowances.length = 3 := by
  have hlatest : latestAllowanceYear = ("2024/25") := by decide
  have hsome : (List.lookup latestAllowanceYear ALLOWANCES).isSome = true := by
    rw [hlatest]; decide
  refine ⟨?_, hlatest, ?_⟩
  · unfold review_isa_year
    simp [h, hsome]
  · unfold review_isa_year
    simp

/-- Witness for C6 at a year missing from the table. -/
theorem review_missing_year_fallback_witness :
    review_isa_year ("2025/26") [] = review_isa_year latestAllowanceYear [] ∧
      latestAllowanceYear = ("2024/25") ∧
      (review_isa_year ("2025/26") []).allowances.length = 3 :=
  review_missing_year_fallback ("2025/26") [] (by decide)

/-- C8: in every row of the per-year allowance summary, the remaining
value equals that row's allowance minus that row's contributions, as
exact rationals, and it is negative exactly when the contributions
exceed the allowance. -/
theorem remaining_eq_allowance_sub_contributions (year : String)
    (deps : List Deposit) (r : Row)
    (hr : r ∈ (review_isa_year year deps).allowances) :
    r.remaining = r.allowance - r.contribs ∧
      (r.remaining < 0 ↔ r.contribs > r.allowance) := by
  unfold review_isa_year at hr
  simp only [List.mem_cons, List.not_mem_nil, or_false] at hr
  rcases hr with h | h | h <;> subst h <;> exact ⟨rfl, sub_neg⟩

/-- Witness for C8 at a concrete year and row. -/
theorem remaining_eq_allowance_sub_contributions_witness :
    ((⟨("Cash"), 20000, 0, 20000⟩ : Row).remaining =
        (⟨("Cash"), 20000, 0, 20000⟩ : Row).allowance -
          (⟨("Cash"), 20000, 0, 20000⟩ : Row).contribs) ∧
      ((⟨("Cash"), 20000, 0, 20000⟩ : Row).remaining < 0 ↔
        (⟨("Cash"), 20000, 0, 20000⟩ : Row).contribs >
          (⟨("Cash"), 20000, 0, 20000⟩ : Row).allowance) :=
  remaining_eq_allowance_sub_contributions ("2023/24") [] _ (by
    simp [review_isa_year, contribOf, List.insertionSort,
      show List.lookup ("2023/24") ALLOWANCES = some ⟨20000, 20000, 20000⟩ from by decide])

/-- Accumulator-shifted form of the three contribution folds. -/
theorem contrib_split_aux (l : List Deposit) (a b c : ℚ)
    (h : ∀ d ∈ l, d.type ≠ none) (habc : a + b = c) :
    l.foldl (fun acc d => if d.type == some IsaKind.cash then acc + d.amount else acc) a +
      l.foldl (fun acc d => if d.type == some IsaKind.stocks then acc + d.amount else acc) b =
    l.foldl (fun acc d => acc + d.amount) c := by
  induction l generalizing a b c with
  | nil => simpa using habc
  | cons d ds ih =>
    have hd : d.type ≠ none := h d (List.mem_cons_self d ds)
    have hh : ∀ x ∈ ds, x.type ≠ none := fun x hx => h x (List.mem_cons_of_mem d hx)
    simp only [List.foldl_cons]
    rcases hk : d.type with _ | k
    · exact absurd hk hd
    · cases k with
      | cash =>
        simp only [show ((some IsaKind.cash == some IsaKind.cash) = true) from rfl,
          show ((some IsaKind.cash == some IsaKind.stocks) = false) from rfl,
          if_true, Bool.false_eq_true, if_false]
        exact ih (a + d.amount) b (c + d.amount) hh (by linarith)
      | stocks =>
        simp only [show ((some IsaKind.stocks == some IsaKind.stocks) = true) from rfl,
          show ((some IsaKind.stocks == some IsaKind.cash) = false) from rfl,
          if_true, Bool.false_eq_true, if_false]
        exact ih a (b + d.amount) (c + d.amount) hh (by linarith)

/-- C9: for every reviewed year and deposit list whose kinds are all
cash or stocks, the cash contributions plus the stocks contributions in
the summary equal the total contributions. -/
theorem contributions_split_sum (year : String) (deps : List Deposit)
    (h : ∀ d ∈ deps, d.type ≠ none) :
    ((review_isa_year year deps).allowances.getD 0 ⟨(""), 0, 0, 0⟩).contribs +
      ((review_isa_year year deps).allowances.getD 1 ⟨(""), 0, 0, 0⟩).contribs =
    ((review_isa_year year deps).allowances.getD 2 ⟨(""), 0, 0, 0⟩).contribs := by
  have hs : ∀ d ∈ List.insertionSort depLe deps, d.type ≠ none := fun d hd =>
    h d ((List.mem_insertionSort depLe).mp hd)
  unfold review_isa_year
  simp only [List.getD_cons_zero, List.getD_cons_succ]
  exact contrib_split_aux (List.insertionSort depLe deps) 0 0 0 hs (by norm_num)

/-- Witness for C9 at one concrete cash deposit. -/
theorem contributions_split_sum_witness :
    ((review_isa_year ("2023/24") [depW]).allowances.getD 0 ⟨(""), 0, 0, 0⟩).contribs +
      ((review_isa_year ("2023/24") [depW]).allowances.getD 1 ⟨(""), 0, 0, 0⟩).contribs =
    ((review_isa_year ("2023/24") [depW]).allowances.getD 2 ⟨(""), 0, 0, 0⟩).contribs :=
  contributions_split_sum ("2023/24") [depW] (by decide)
